import Mathlib

/-!
Verification of the payment-bot webhook / order-reconciliation kernel
(`src/main.py`).  The Python source is shallowly embedded: JSON values are an
inductive type, `json.loads` is a fuel-based recursive-descent parser,
`json.dumps` is a recursive serializer (both separator styles used by the
source), HMAC-SHA512 is implemented over byte lists (`Nat < 256`), the SQLite
store is a record of lists, and the FastAPI webhook handler is a pure state
transformer returning an HTTP outcome together with the new store.

Modelling notes, fixed once here:
* JSON numbers are restricted to integer numerals.  Python parses other
  numerals to IEEE-754 floats and re-serializes them through float `repr`,
  which is outside a faithful integer embedding; no claim concerns
  non-integer numerals.  Integer numerals round-trip byte-for-byte in both
  Python and this model.
* Strings are Unicode strings; lone surrogates (allowed by Python's lenient
  `\uXXXX` handling) are not representable in Lean `Char` and are treated as
  parse failures.  No claim concerns lone surrogates.
* `datetime.utcnow().isoformat()` values are threaded in as opaque `now`
  strings; amounts (Python floats on which the source does no arithmetic in
  any claim-relevant path) are carried as `Rat`.
-/

/-- JSON values as produced by `json.loads` (integer-numeral fragment). -/
inductive Json where
  | null : Json
  | bool (b : Bool) : Json
  | num (n : Int) : Json
  | str (s : String) : Json
  | arr (elems : List Json) : Json
  | obj (members : List (String × Json)) : Json

/-- The double-quote character. -/
def quoteChar : Char := Char.ofNat 34

/-- The backslash character. -/
def backslashChar : Char := Char.ofNat 92

/-- The opening-brace character. -/
def lbraceChar : Char := Char.ofNat 123

/-- The closing-brace character. -/
def rbraceChar : Char := Char.ofNat 125

/-- JSON whitespace accepted between tokens by `json.loads`. -/
def isWsChar (c : Char) : Bool :=
  c = ' ' || c = '\t' || c = '\n' || c = '\r'

/-- Drop leading JSON whitespace. -/
def skipWs : List Char → List Char
  | [] => []
  | c :: cs => if isWsChar c then skipWs cs else c :: cs

/-- Numeric value of a decimal digit string. -/
def natOfDigits (ds : List Char) : Nat :=
  ds.foldl (fun a c => a * 10 + (c.toNat - 48)) 0

/-- Value of a hexadecimal digit, if any. -/
def hexVal (c : Char) : Option Nat :=
  let n := c.toNat
  if 48 ≤ n && n ≤ 57 then some (n - 48)
  else if 97 ≤ n && n ≤ 102 then some (n - 87)
  else if 65 ≤ n && n ≤ 70 then some (n - 55)
  else none

/-- Value of four hexadecimal digits (the `XXXX` of a `\uXXXX` escape). -/
def hex4 : List Char → Option (Nat × List Char)
  | a :: b :: c :: d :: rest => do
    let va ← hexVal a
    let vb ← hexVal b
    let vc ← hexVal c
    let vd ← hexVal d
    pure (va * 4096 + vb * 256 + vc * 16 + vd, rest)
  | _ => none

/-- Python-dict insertion used while parsing object members: a repeated key
keeps its first position but takes the latest value. -/
def objInsert (acc : List (String × Json)) (k : String) (v : Json) :
    List (String × Json) :=
  if acc.any (fun p => p.1 == k) then
    acc.map (fun p => if p.1 == k then (k, v) else p)
  else acc ++ [(k, v)]

/-- Parse a JSON integer numeral (grammar `-? (0 | [1-9][0-9]*)`); numerals
continuing with `.`, `e` or `E` are floats, outside the modelled fragment. -/
def parseNum (cs : List Char) : Option (Json × List Char) :=
  let negSplit : Bool × List Char :=
    match cs with
    | c :: r => if c = '-' then (true, r) else (false, cs)
    | [] => (false, cs)
  let ds := negSplit.2.takeWhile Char.isDigit
  let rest := negSplit.2.dropWhile Char.isDigit
  match ds with
  | [] => none
  | d0 :: dtail =>
    if d0 = '0' && !dtail.isEmpty then none
    else
      let bad : Bool :=
        match rest with
        | c :: _ => c = '.' || c = 'e' || c = 'E'
        | [] => false
      if bad then none
      else
        let v : Int := Int.ofNat (natOfDigits ds)
        some (Json.num (if negSplit.1 then -v else v), rest)

mutual

/-- Parse one JSON value (after the caller's whitespace skipping). -/
def parseVal : Nat → List Char → Option (Json × List Char)
  | 0, _ => none
  | fuel + 1, cs =>
    match skipWs cs with
    | [] => none
    | c :: rest =>
      if c = quoteChar then
        match parseStrBody fuel rest [] with
        | some (s, r) => some (Json.str s, r)
        | none => none
      else if c = lbraceChar then
        match skipWs rest with
        | c2 :: r2 =>
          if c2 = rbraceChar then some (Json.obj [], r2)
          else parseMembers fuel [] rest
        | [] => none
      else if c = '[' then
        match skipWs rest with
        | c2 :: r2 =>
          if c2 = ']' then some (Json.arr [], r2)
          else parseElems fuel [] rest
        | [] => none
      else if c = 't' then
        match rest with
        | 'r' :: 'u' :: 'e' :: r => some (Json.bool true, r)
        | _ => none
      else if c = 'f' then
        match rest with
        | 'a' :: 'l' :: 's' :: 'e' :: r => some (Json.bool false, r)
        | _ => none
      else if c = 'n' then
        match rest with
        | 'u' :: 'l' :: 'l' :: r => some (Json.null, r)
        | _ => none
      else if c = '-' || c.isDigit then parseNum (c :: rest)
      else none

/-- Parse the members of an object after `{` (or after a `,`). -/
def parseMembers : Nat → List (String × Json) → List Char →
    Option (Json × List Char)
  | 0, _, _ => none
  | fuel + 1, acc, cs =>
    match skipWs cs with
    | c :: rest =>
      if c = quoteChar then
        match parseStrBody fuel rest [] with
        | some (k, r1) =>
          match skipWs r1 with
          | c2 :: r2 =>
            if c2 = ':' then
              match parseVal fuel r2 with
              | some (v, r3) =>
                let acc2 := objInsert acc k v
                match skipWs r3 with
                | c3 :: r4 =>
                  if c3 = ',' then parseMembers fuel acc2 r4
                  else if c3 = rbraceChar then some (Json.obj acc2, r4)
                  else none
                | [] => none
              | none => none
            else none
          | [] => none
        | none => none
      else none
    | [] => none

/-- Parse the elements of an array after `[` (or after a `,`). -/
def parseElems : Nat → List Json → List Char → Option (Json × List Char)
  | 0, _, _ => none
  | fuel + 1, acc, cs =>
    match parseVal fuel cs with
    | some (v, r1) =>
      match skipWs r1 with
      | c :: r2 =>
        if c = ',' then parseElems fuel (acc ++ [v]) r2
        else if c = ']' then some (Json.arr (acc ++ [v]), r2)
        else none
      | [] => none
    | none => none

/-- Parse a JSON string body after the opening quote (strict mode: raw
control characters are rejected, as in `json.loads`). -/
def parseStrBody : Nat → List Char → List Char → Option (String × List Char)
  | 0, _, _ => none
  | fuel + 1, cs, acc =>
    match cs with
    | [] => none
    | c :: rest =>
      if c = quoteChar then some (String.mk acc.reverse, rest)
      else if c = backslashChar then
        match rest with
        | [] => none
        | e :: r2 =>
          if e = quoteChar then parseStrBody fuel r2 (quoteChar :: acc)
          else if e = backslashChar then parseStrBody fuel r2 (backslashChar :: acc)
          else if e = '/' then parseStrBody fuel r2 ('/' :: acc)
          else if e = 'b' then parseStrBody fuel r2 (Char.ofNat 8 :: acc)
          else if e = 'f' then parseStrBody fuel r2 (Char.ofNat 12 :: acc)
          else if e = 'n' then parseStrBody fuel r2 ('\n' :: acc)
          else if e = 'r' then parseStrBody fuel r2 ('\r' :: acc)
          else if e = 't' then parseStrBody fuel r2 ('\t' :: acc)
          else if e = 'u' then
            match hex4 r2 with
            | some (n, r3) =>
              if 55296 ≤ n && n < 56320 then
                match r3 with
                | b1 :: b2 :: r4 =>
                  if b1 = backslashChar && b2 = 'u' then
                    match hex4 r4 with
                    | some (m, r5) =>
                      if 56320 ≤ m && m < 57344 then
                        let cp := 65536 + (n - 55296) * 1024 + (m - 56320)
                        parseStrBody fuel r5 (Char.ofNat cp :: acc)
                      else none
                    | none => none
                  else none
                | _ => none
              else if 56320 ≤ n && n < 57344 then none
              else parseStrBody fuel r3 (Char.ofNat n :: acc)
            | none => none
          else none
      else if c.toNat < 32 then none
      else parseStrBody fuel rest (c :: acc)

end

/-- Embedding of `json.loads(raw_body.decode("utf-8"))` on the modelled
fragment: parse a complete JSON document with optional surrounding
whitespace. -/
def Json.parse (s : String) : Option Json :=
  match parseVal (2 * s.length + 4) s.data with
  | some (v, rest) => if (skipWs rest).isEmpty then some v else none
  | none => none

/-- Lowercase hexadecimal digit. -/
def hexLowerChar (n : Nat) : Char :=
  Char.ofNat (if n < 10 then 48 + n else 87 + n)

/-- Per-character JSON string escaping of `json.dumps(..., ensure_ascii=False)`:
only `"`, `\` and control characters below U+0020 are escaped. -/
def jsonEscapeChar (c : Char) : List Char :=
  let n := c.toNat
  if n = 34 then [backslashChar, quoteChar]
  else if n = 92 then [backslashChar, backslashChar]
  else if n = 8 then [backslashChar, 'b']
  else if n = 9 then [backslashChar, 't']
  else if n = 10 then [backslashChar, 'n']
  else if n = 12 then [backslashChar, 'f']
  else if n = 13 then [backslashChar, 'r']
  else if n < 32 then
    [backslashChar, 'u', '0', '0', hexLowerChar (n / 16), hexLowerChar (n % 16)]
  else [c]

/-- Serialization of a JSON string literal. -/
def jsonQuote (s : String) : String :=
  String.mk (quoteChar :: s.data.foldr (fun c acc => jsonEscapeChar c ++ acc) [quoteChar])

mutual

/-- Serializer core of `json.dumps` with element separator `isep` and
key-value separator `ksep`, emitting members in list order. -/
def emitVal (isep ksep : String) : Json → String
  | Json.null => "null"
  | Json.bool true => "true"
  | Json.bool false => "false"
  | Json.num n => toString n
  | Json.str s => jsonQuote s
  | Json.arr xs => "[" ++ emitElems isep ksep xs ++ "]"
  | Json.obj kvs =>
      String.singleton lbraceChar ++ emitMembers isep ksep kvs ++
        String.singleton rbraceChar

/-- Serialize array elements, `isep`-separated. -/
def emitElems (isep ksep : String) : List Json → String
  | [] => ""
  | [x] => emitVal isep ksep x
  | x :: y :: xs => emitVal isep ksep x ++ isep ++ emitElems isep ksep (y :: xs)

/-- Serialize object members, `isep`-separated, `ksep` between key and value. -/
def emitMembers (isep ksep : String) : List (String × Json) → String
  | [] => ""
  | [(k, v)] => jsonQuote k ++ ksep ++ emitVal isep ksep v
  | (k, v) :: m :: kvs =>
      jsonQuote k ++ ksep ++ emitVal isep ksep v ++ isep ++
        emitMembers isep ksep (m :: kvs)

end

/-- Key order used by `sort_keys=True`: compare members by key with the
code-point lexicographic order on strings (Python `sorted` on `str`). -/
def pairLe (p q : String × Json) : Prop := p.1 ≤ q.1

instance : DecidableRel pairLe := fun p q =>
  inferInstanceAs (Decidable (p.1 ≤ q.1))

instance : IsTotal (String × Json) pairLe := ⟨fun p q => le_total p.1 q.1⟩

instance : IsTrans (String × Json) pairLe := ⟨fun _ _ _ => le_trans⟩

mutual

/-- Recursively sort every object's members by key (the key ordering pass
performed by `json.dumps(..., sort_keys=True)`). -/
def sortJson : Json → Json
  | Json.obj kvs => Json.obj (List.insertionSort pairLe (sortKVs kvs))
  | Json.arr xs => Json.arr (sortList xs)
  | v => v

/-- `sortJson` mapped over array elements. -/
def sortList : List Json → List Json
  | [] => []
  | x :: xs => sortJson x :: sortList xs

/-- `sortJson` mapped over member values. -/
def sortKVs : List (String × Json) → List (String × Json)
  | [] => []
  | (k, v) :: kvs => (k, sortJson v) :: sortKVs kvs

end

/-- Embedding of line 146 of the source,
`json.dumps(body_obj, sort_keys=True, separators=(",", ":"), ensure_ascii=False)`:
all object keys sorted at every nesting level, minimal separators. -/
def dumpsCanon (j : Json) : String := emitVal (",") (":") (sortJson j)

/-- Embedding of line 108 of the source, `json.dumps(raw, ensure_ascii=False)`:
default separators, insertion key order (used for the stored `raw_json`). -/
def dumpsPlain (j : Json) : String := emitVal (", ") (": ") j

/-! ### HMAC-SHA512 (`hmac.new(secret, msg, hashlib.sha512).hexdigest()`) -/

/-- Reduction modulo the 64-bit word size. -/
def w64 (n : Nat) : Nat := n % 18446744073709551616

/-- Right rotation of a 64-bit word. -/
def rotr64 (x n : Nat) : Nat := w64 ((x >>> n) ||| (x <<< (64 - n)))

/-- SHA-512 big sigma 0. -/
def bsig0 (x : Nat) : Nat := rotr64 x 28 ^^^ rotr64 x 34 ^^^ rotr64 x 39

/-- SHA-512 big sigma 1. -/
def bsig1 (x : Nat) : Nat := rotr64 x 14 ^^^ rotr64 x 18 ^^^ rotr64 x 41

/-- SHA-512 small sigma 0. -/
def ssig0 (x : Nat) : Nat := rotr64 x 1 ^^^ rotr64 x 8 ^^^ (x >>> 7)

/-- SHA-512 small sigma 1. -/
def ssig1 (x : Nat) : Nat := rotr64 x 19 ^^^ rotr64 x 61 ^^^ (x >>> 6)

/-- SHA-2 choose function. -/
def shaCh (x y z : Nat) : Nat := (x &&& y) ^^^ ((x ^^^ 18446744073709551615) &&& z)

/-- SHA-2 majority function. -/
def shaMaj (x y z : Nat) : Nat := (x &&& y) ^^^ (x &&& z) ^^^ (y &&& z)

/-- Primality test by trial division (for the SHA constant primes). -/
def isPrimeNat (n : Nat) : Bool :=
  2 ≤ n && (List.range n).all fun d => d ≤ 1 || n % d ≠ 0

/-- The first 80 primes, whose cube/square roots yield the SHA-512 constants. -/
def primes80 : List Nat := ((List.range 410).filter isPrimeNat).take 80

/-- Binary-search step for the integer cube root. -/
def icbrtGo : Nat → Nat → Nat → Nat → Nat
  | 0, _, lo, _ => lo
  | fuel + 1, n, lo, hi =>
    if hi ≤ lo + 1 then lo
    else
      let m := (lo + hi) / 2
      if m * m * m ≤ n then icbrtGo fuel n m hi else icbrtGo fuel n lo m

/-- Integer (floor) cube root. -/
def icbrt (n : Nat) : Nat := icbrtGo 300 n 0 (n + 2)

/-- First 64 fractional bits of the cube root of `p` (SHA-512 round constant). -/
def fracCbrt64 (p : Nat) : Nat := icbrt (p <<< 192) - (icbrt p) <<< 64

/-- First 64 fractional bits of the square root of `p` (SHA-512 initial hash). -/
def fracSqrt64 (p : Nat) : Nat := Nat.sqrt (p <<< 128) - (Nat.sqrt p) <<< 64

/-- The 80 SHA-512 round constants K. -/
def K512 : List Nat := primes80.map fracCbrt64

/-- Eight 64-bit working/hash words of SHA-512. -/
structure H8 where
  a : Nat
  b : Nat
  c : Nat
  d : Nat
  e : Nat
  f : Nat
  g : Nat
  h : Nat

/-- SHA-512 initial hash value. -/
def H512init : H8 :=
  ⟨fracSqrt64 2, fracSqrt64 3, fracSqrt64 5, fracSqrt64 7,
   fracSqrt64 11, fracSqrt64 13, fracSqrt64 17, fracSqrt64 19⟩

/-- Group bytes into big-endian 64-bit words. -/
def bytesToWords : List Nat → List Nat
  | b0 :: b1 :: b2 :: b3 :: b4 :: b5 :: b6 :: b7 :: rest =>
      (((((((b0 * 256 + b1) * 256 + b2) * 256 + b3) * 256 + b4) * 256 + b5) *
        256 + b6) * 256 + b7) :: bytesToWords rest
  | _ => []

/-- Message-schedule extension; the accumulator holds W in reverse order. -/
def schedGo : Nat → List Nat → List Nat
  | 0, acc => acc
  | n + 1, acc =>
      schedGo n
        (w64 (ssig1 (acc.getD 1 0) + acc.getD 6 0 + ssig0 (acc.getD 14 0) +
          acc.getD 15 0) :: acc)

/-- One SHA-512 round. -/
def roundStep (st : H8) (kw : Nat × Nat) : H8 :=
  let t1 := w64 (st.h + bsig1 st.e + shaCh st.e st.f st.g + kw.1 + kw.2)
  let t2 := w64 (bsig0 st.a + shaMaj st.a st.b st.c)
  ⟨w64 (t1 + t2), st.a, st.b, st.c, w64 (st.d + t1), st.e, st.f, st.g⟩

/-- Compress one 128-byte block into the running hash. -/
def compressBlock (st : H8) (block : List Nat) : H8 :=
  let ws := (schedGo 64 (bytesToWords block).reverse).reverse
  let fin := (K512.zip ws).foldl roundStep st
  ⟨w64 (st.a + fin.a), w64 (st.b + fin.b), w64 (st.c + fin.c),
   w64 (st.d + fin.d), w64 (st.e + fin.e), w64 (st.f + fin.f),
   w64 (st.g + fin.g), w64 (st.h + fin.h)⟩

/-- SHA-512 padding: `0x80`, zeros, then the 128-bit big-endian bit length. -/
def sha512pad (msg : List Nat) : List Nat :=
  let L := msg.length
  let zeros := (112 + 128 - (L + 1) % 128) % 128
  msg ++ [128] ++ List.replicate zeros 0 ++
    (List.range 16).map fun i => ((8 * L) >>> (8 * (15 - i))) % 256

/-- Split into 128-byte blocks (`n` = number of blocks). -/
def chunks128 : Nat → List Nat → List (List Nat)
  | 0, _ => []
  | n + 1, l => l.take 128 :: chunks128 n (l.drop 128)

/-- Big-endian bytes of a 64-bit word. -/
def wordBytes (w : Nat) : List Nat :=
  [(w >>> 56) % 256, (w >>> 48) % 256, (w >>> 40) % 256, (w >>> 32) % 256,
   (w >>> 24) % 256, (w >>> 16) % 256, (w >>> 8) % 256, w % 256]

/-- The 64 digest bytes of a final hash state. -/
def digestBytes (st : H8) : List Nat :=
  wordBytes st.a ++ wordBytes st.b ++ wordBytes st.c ++ wordBytes st.d ++
    wordBytes st.e ++ wordBytes st.f ++ wordBytes st.g ++ wordBytes st.h

/-- SHA-512 of a byte list. -/
def sha512bytes (msg : List Nat) : List Nat :=
  let padded := sha512pad msg
  digestBytes ((chunks128 (padded.length / 128) padded).foldl compressBlock H512init)

/-- HMAC-SHA512 (RFC 2104, block size 128). -/
def hmacSha512 (key msg : List Nat) : List Nat :=
  let k0 := if 128 < key.length then sha512bytes key else key
  let kp := k0 ++ List.replicate (128 - k0.length) 0
  sha512bytes ((kp.map fun b => b ^^^ 92) ++
    sha512bytes ((kp.map fun b => b ^^^ 54) ++ msg))

/-- Lowercase hex string of a byte list (`hexdigest()`). -/
def bytesToHex (bs : List Nat) : String :=
  String.mk (bs.foldr (fun b acc => hexLowerChar (b / 16) :: hexLowerChar (b % 16) :: acc) [])

/-- UTF-8 encoding of one character. -/
def utf8Char (c : Char) : List Nat :=
  let n := c.toNat
  if n < 128 then [n]
  else if n < 2048 then [192 + n / 64, 128 + n % 64]
  else if n < 65536 then [224 + n / 4096, 128 + (n / 64) % 64, 128 + n % 64]
  else
    [240 + n / 262144, 128 + (n / 4096) % 64, 128 + (n / 64) % 64, 128 + n % 64]

/-- UTF-8 encoding of a string (`.encode("utf-8")`). -/
def utf8Bytes (s : String) : List Nat := (s.data.map utf8Char).flatten

/-- The signature the verifier computes for a parsed body `v` (lines 146-151):
hex HMAC-SHA512 of the canonical serialization, keyed by the IPN secret. -/
def canonSig (secret : String) (v : Json) : String :=
  bytesToHex (hmacSha512 (utf8Bytes secret) (utf8Bytes (dumpsCanon v)))

/-- Python exceptions that the modelled paths can raise. -/
inductive PyErr where
  | attributeError : PyErr
  | typeError : PyErr
deriving DecidableEq

/-- `s` consists of ASCII characters only. -/
def asciiOnly (s : String) : Bool := s.data.all fun c => c.toNat < 128

/-- `hmac.compare_digest` on two `str` arguments: constant-time equality for
ASCII strings, `TypeError` if either side contains a non-ASCII character. -/
def compareDigest (a b : String) : Except PyErr Bool :=
  if asciiOnly a then
    if asciiOnly b then Except.ok (a == b) else Except.error PyErr.typeError
  else Except.error PyErr.typeError

/-- Embedding of `verify_nowpayments_signature` (lines 138-153).  A falsy
(missing or empty) header and an unparseable body return `false`; otherwise
the canonical-serialization digest is compared with the header value.  An
uncaught exception of `compare_digest` is an `Except.error`. -/
def verify_nowpayments_signature (secret raw : String)
    (signature : Option String) : Except PyErr Bool :=
  match signature with
  | none => Except.ok false
  | some s =>
    if s = "" then Except.ok false
    else
      match Json.parse raw with
      | none => Except.ok false
      | some v => compareDigest (canonSig secret v) s

/-! ### Python value semantics used by the handler's field extraction -/

/-- Python truthiness of a JSON-loaded value. -/
def pyTruthy : Json → Bool
  | Json.null => false
  | Json.bool b => b
  | Json.num n => n ≠ 0
  | Json.str s => s ≠ ""
  | Json.arr xs => !xs.isEmpty
  | Json.obj kvs => !kvs.isEmpty

/-- Python `repr` of a string: preferred single quotes, double quotes when the
string contains a single quote but no double quote; common escapes.  (Python
additionally escapes some non-printable Unicode; no claim depends on those.) -/
def pyReprStr (s : String) : String :=
  let sq := Char.ofNat 39
  let q := if s.data.contains sq && !(s.data.contains quoteChar) then quoteChar
    else sq
  String.mk (q :: s.data.foldr (fun c acc =>
    (let n := c.toNat
     if c = backslashChar then [backslashChar, backslashChar]
     else if c = q then [backslashChar, q]
     else if n = 10 then [backslashChar, 'n']
     else if n = 13 then [backslashChar, 'r']
     else if n = 9 then [backslashChar, 't']
     else if n < 32 || n = 127 then
       [backslashChar, 'x', hexLowerChar (n / 16), hexLowerChar (n % 16)]
     else [c]) ++ acc) [q])

mutual

/-- Python `repr` of a JSON-loaded value. -/
def pyRepr : Json → String
  | Json.null => "None"
  | Json.bool true => "True"
  | Json.bool false => "False"
  | Json.num n => toString n
  | Json.str s => pyReprStr s
  | Json.arr xs => "[" ++ pyReprElems xs ++ "]"
  | Json.obj kvs =>
      String.singleton lbraceChar ++ pyReprMembers kvs ++
        String.singleton rbraceChar

/-- `repr` of list elements, comma-space separated. -/
def pyReprElems : List Json → String
  | [] => ""
  | [x] => pyRepr x
  | x :: y :: xs => pyRepr x ++ ", " ++ pyReprElems (y :: xs)

/-- `repr` of dict items, comma-space separated, colon-space keyed. -/
def pyReprMembers : List (String × Json) → String
  | [] => ""
  | [(k, v)] => pyReprStr k ++ ": " ++ pyRepr v
  | (k, v) :: m :: kvs => pyReprStr k ++ ": " ++ pyRepr v ++ ", " ++ pyReprMembers (m :: kvs)

end

/-- Python `str()` of a JSON-loaded value: identity on strings, `repr`-like
formatting otherwise. -/
def pyStr : Json → String
  | Json.str s => s
  | v => pyRepr v

/-- Python `data.get(k)`: `None` default on a dict, `AttributeError` on any
non-dict value. -/
def jget (v : Json) (k : String) : Except PyErr Json :=
  match v with
  | Json.obj kvs =>
      Except.ok (((kvs.find? fun p => p.1 == k).map Prod.snd).getD Json.null)
  | _ => Except.error PyErr.attributeError

/-- The source's alias pattern `data.get(k1) or data.get(k2) or ""` with
Python `or` short-circuiting on truthiness. -/
def getAlias (v : Json) (k1 k2 : String) : Except PyErr Json := do
  let v1 ← jget v k1
  if pyTruthy v1 then pure v1
  else
    let v2 ← jget v k2
    if pyTruthy v2 then pure v2 else pure (Json.str "")

/-- Python `.lower()`: defined on strings (ASCII case folding, which covers
every status keyword the source compares against), `AttributeError` on any
other value. -/
def pyLower : Json → Except PyErr String
  | Json.str s => Except.ok (String.mk (s.data.map Char.toLower))
  | _ => Except.error PyErr.attributeError

/-- Lines 186-188 of the source: extract `status` (lower-cased),
`payment_id` and `invoice_id` from the parsed body, with the gateway's
field-name aliases, in source evaluation order. -/
def extractFields (data : Json) : Except PyErr (String × String × String) := do
  let sv ← getAlias data "payment_status" "status"
  let st ← pyLower sv
  let pv ← getAlias data "payment_id" "id"
  let iv ← getAlias data "invoice_id" "invoice"
  pure (st, pyStr pv, pyStr iv)

/-! ### The SQLite store (`orders.db`) as a record of lists -/

/-- One row of the `orders` table. -/
structure Order where
  id : Nat
  created_at : String
  chat_id : Int
  amount_usd : Rat
  invoice_id : Option String
  invoice_url : Option String
  status : String
deriving DecidableEq

/-- One row of the `payments` table (`payment_id` is the primary key). -/
structure Payment where
  payment_id : String
  order_id : Nat
  status : String
  raw_json : String
  updated_at : String
deriving DecidableEq

/-- The whole store: rows in rowid order plus the AUTOINCREMENT counter. -/
structure DB where
  nextOrderId : Nat
  orders : List Order
  payments : List Payment
deriving DecidableEq

/-- `init_db()`: empty tables, first order id 1. -/
def init_db : DB := ⟨1, [], []⟩

/-- `create_order`: INSERT a new order with status `created`, returning
`lastrowid`. -/
def create_order (now : String) (chat_id : Int) (amount_usd : Rat) (db : DB) :
    Nat × DB :=
  (db.nextOrderId,
   { db with
       nextOrderId := db.nextOrderId + 1,
       orders := db.orders ++
         [⟨db.nextOrderId, now, chat_id, amount_usd, none, none, "created"⟩] })

/-- `attach_invoice`: UPDATE invoice fields and status on rows matching the
order id (no row need match). -/
def attach_invoice (order_id : Nat) (invoice_id invoice_url : String)
    (db : DB) : DB :=
  { db with
      orders := db.orders.map fun o =>
        if o.id = order_id then
          { o with
              invoice_id := some invoice_id,
              invoice_url := some invoice_url,
              status := "invoice_created" }
        else o }

/-- `set_order_status`: unconditional status UPDATE on rows matching the id. -/
def set_order_status (order_id : Nat) (status : String) (db : DB) : DB :=
  { db with
      orders := db.orders.map fun o =>
        if o.id = order_id then { o with status := status } else o }

/-- `get_order`: first row with the given id. -/
def get_order (order_id : Nat) (db : DB) : Option Order :=
  db.orders.find? fun o => o.id == order_id

/-- `get_order_by_invoice`: `fetchone()` of `WHERE invoice_id=?` — the first
row (in rowid order) whose non-NULL invoice_id equals the argument. -/
def get_order_by_invoice (invoice_id : String) (db : DB) : Option Order :=
  db.orders.find? fun o => o.invoice_id == some invoice_id

/-- `upsert_payment`: INSERT with `ON CONFLICT(payment_id) DO UPDATE` setting
only `status`, `raw_json` and `updated_at` (NOT `order_id`). -/
def upsert_payment (payment_id : String) (order_id : Nat) (status : String)
    (raw : Json) (now : String) (db : DB) : DB :=
  if db.payments.any (fun p => p.payment_id == payment_id) then
    { db with
        payments := db.payments.map fun p =>
          if p.payment_id == payment_id then
            { p with
                status := status,
                raw_json := dumpsPlain raw,
                updated_at := now }
          else p }
  else
    { db with
        payments := db.payments ++
          [⟨payment_id, order_id, status, dumpsPlain raw, now⟩] }

/-! ### The webhook handler `POST /ipn` -/

/-- Outcome FastAPI reports to the gateway: 200 acknowledgment, 401 from the
raised `HTTPException`, or 500 from an unhandled exception. -/
inductive HttpResult where
  | ok200 : HttpResult
  | unauthorized401 : HttpResult
  | serverError500 : HttpResult
deriving DecidableEq

/-- Lines 190-210 of the handler, after successful extraction: acknowledge
empty ids and unknown invoices; otherwise upsert the payment event, overwrite
the order status, and (when the `tg_app` handle is present and the status is
terminal-paid) attempt the operator notification, whose failure propagates
after the writes. -/
def reconcile (now : String) (tg : Option Bool)
    (status payment_id invoice_id : String) (data : Json) (db : DB) :
    HttpResult × DB :=
  if payment_id = "" || invoice_id = "" then (HttpResult.ok200, db)
  else
    match get_order_by_invoice invoice_id db with
    | none => (HttpResult.ok200, db)
    | some order =>
      let db1 := set_order_status order.id status
        (upsert_payment payment_id order.id status data now db)
      match tg with
      | some sendOk =>
        if status = "confirmed" || status = "finished" then
          if sendOk then (HttpResult.ok200, db1)
          else (HttpResult.serverError500, db1)
        else (HttpResult.ok200, db1)
      | none => (HttpResult.ok200, db1)

/-- Embedding of `nowpayments_ipn` (lines 178-210).  `tg` models the global
`tg_app` handle: `none` when unset, `some sendOk` when present with `sendOk`
telling whether `bot.send_message` succeeds (its text is a human-readable
rendering of already-modelled fields and is not tracked).  An exception from
field extraction or from the notifier propagates as a 500 *after* any store
writes already performed. -/
def nowpayments_ipn (secret now : String) (tg : Option Bool) (raw : String)
    (x_nowpayments_sig : Option String) (db : DB) : HttpResult × DB :=
  match verify_nowpayments_signature secret raw x_nowpayments_sig with
  | Except.error _ => (HttpResult.serverError500, db)
  | Except.ok false => (HttpResult.unauthorized401, db)
  | Except.ok true =>
    match Json.parse raw with
    | none => (HttpResult.serverError500, db)
    | some data =>
      match extractFields data with
      | Except.error _ => (HttpResult.serverError500, db)
      | Except.ok (status, payment_id, invoice_id) =>
        reconcile now tg status payment_id invoice_id data db

/-! ### Invoice creation (`make_payment_link`) -/

/-- Outcome of `await create_invoice(...)` as seen by `make_payment_link`:
a parsed 2xx JSON body, an `httpx.HTTPStatusError` carrying the response
text, or any other exception. -/
inductive InvoiceResult where
  | success (inv : Json) : InvoiceResult
  | httpError (bodyText : String) : InvoiceResult
  | exn : InvoiceResult

/-- Embedding of `make_payment_link` (lines 339-375): create the order, then
dispatch on the invoice-creation outcome.  Returns the new store and the
messages sent to the operator chat (success-path message text abbreviates the
float-formatted amount, which no claim inspects). -/
def make_payment_link (now : String) (chat_id : Int) (amount : Rat)
    (invRes : InvoiceResult) (db : DB) : DB × List (Int × String) :=
  let created := create_order now chat_id amount db
  let order_id := created.1
  let db1 := created.2
  match invRes with
  | InvoiceResult.httpError body =>
      (set_order_status order_id ("invoice_http_error") db1,
       [(chat_id, "❌ خطأ من NOWPayments:\n" ++ body)])
  | InvoiceResult.exn =>
      (set_order_status order_id ("invoice_exception") db1,
       [(chat_id, "❌ خطأ غير متوقع: ")])
  | InvoiceResult.success inv =>
    match getAlias inv "id" "invoice_id", getAlias inv "invoice_url" "payment_url" with
    | Except.ok idv, Except.ok urlv =>
      let invoice_id := pyStr idv
      if invoice_id = "" || !pyTruthy urlv then
        (set_order_status order_id ("invoice_error") db1,
         [(chat_id, "❌ فشل إنشاء الفاتورة.\nالرد: " ++ pyStr inv)])
      else
        (attach_invoice order_id invoice_id (pyStr urlv) db1,
         [(chat_id, "🧾 طلب #" ++ toString order_id), (chat_id, pyStr urlv)])
    | _, _ =>
        (set_order_status order_id ("invoice_exception") db1,
         [(chat_id, "❌ خطأ غير متوقع: ")])

/-! ### Reachable store states -/

/-- Store states reachable from `init_db()` through the store operations the
source ever performs, with arbitrary (externally chosen) arguments. -/
inductive Reachable : DB → Prop where
  | start : Reachable init_db
  | createStep (now : String) (chat_id : Int) (amount : Rat) {db : DB} :
      Reachable db → Reachable (create_order now chat_id amount db).2
  | attachStep (order_id : Nat) (inv url : String) {db : DB} :
      Reachable db → Reachable (attach_invoice order_id inv url db)
  | statusStep (order_id : Nat) (st : String) {db : DB} :
      Reachable db → Reachable (set_order_status order_id st db)
  | upsertStep (pid : String) (oid : Nat) (st : String) (raw : Json)
      (now : String) {db : DB} :
      Reachable db → Reachable (upsert_payment pid oid st raw now db)

/-! ### Concrete fixtures used by witnesses and counterexamples -/

/-- The body `{}`. -/
def rawEmptyObj : String := "\x7b\x7d"

/-- A signed body whose status field is the integer 1. -/
def rawStatusInt : String := "\x7b\"payment_status\":1\x7d"

/-- Parse result of `rawStatusInt`. -/
def vStatusInt : Json := Json.obj [("payment_status", Json.num 1)]

/-- A well-formed confirmed notification for invoice `inv1`. -/
def rawConfirmed : String :=
  "\x7b\"payment_status\":\"confirmed\",\"payment_id\":\"p1\",\"invoice_id\":\"inv1\"\x7d"

/-- Parse result of `rawConfirmed`. -/
def vConfirmed : Json :=
  Json.obj [("payment_status", Json.str "confirmed"),
            ("payment_id", Json.str "p1"), ("invoice_id", Json.str "inv1")]

/-- A notification with ids present but an integer status, for an unknown
invoice `x`. -/
def rawNoMatch : String :=
  "\x7b\"payment_status\":2,\"payment_id\":\"p\",\"invoice_id\":\"x\"\x7d"

/-- Parse result of `rawNoMatch`. -/
def vNoMatch : Json :=
  Json.obj [("payment_status", Json.num 2),
            ("payment_id", Json.str "p"), ("invoice_id", Json.str "x")]

/-- A store with one order (id 1) holding invoice `inv1`. -/
def dbOneInv : DB :=
  attach_invoice 1 "inv1" "https://pay.example/1"
    (create_order "t0" 100 5 init_db).2

/-- A reachable store in which two orders share the invoice id `dup`. -/
def dbDup : DB :=
  attach_invoice 2 "dup" "u2"
    (attach_invoice 1 "dup" "u1"
      ((create_order "t0" 101 7 ((create_order "t0" 100 5 init_db).2)).2))

/-- The single order row of `dbOneInv`. -/
def ordFix : Order :=
  ⟨1, "t0", 100, 5, some "inv1", some "https://pay.example/1",
   "invoice_created"⟩

/-- A nested body with both object levels in one key order. -/
def rawNest1 : String := "\x7b\"b\":1,\"a\":\x7b\"y\":2,\"x\":3\x7d\x7d"

/-- The same body with both object levels reordered. -/
def rawNest2 : String := "\x7b\"a\":\x7b\"x\":3,\"y\":2\x7d,\"b\":1\x7d"

/-- Parse result of `rawNest1`. -/
def vNest1 : Json :=
  Json.obj [("b", Json.num 1),
            ("a", Json.obj [("y", Json.num 2), ("x", Json.num 3)])]

/-- Parse result of `rawNest2`. -/
def vNest2 : Json :=
  Json.obj [("a", Json.obj [("x", Json.num 3), ("y", Json.num 2)]),
            ("b", Json.num 1)]

/-- A notification carrying no payment_id alias. -/
def rawNoPid : String :=
  "\x7b\"payment_status\":\"waiting\",\"invoice_id\":\"inv1\"\x7d"

/-- Parse result of `rawNoPid`. -/
def vNoPid : Json :=
  Json.obj [("payment_status", Json.str "waiting"),
            ("invoice_id", Json.str "inv1")]

/-! ### Differing only in key order -/

/-- Two JSON values differ only in the order of object keys (at any nesting
level): scalars are equal, arrays are pointwise so related, and objects have
duplicate-free key sets that are permutations of one another with the values
at equal keys so related. -/
def keyReorder : Json → Json → Prop
  | Json.arr xs, Json.arr ys =>
      xs.length = ys.length ∧ ∀ p ∈ xs.zip ys, keyReorder p.1 p.2
  | Json.obj xs, Json.obj ys =>
      (xs.map Prod.fst).Nodup ∧ (ys.map Prod.fst).Nodup ∧
        (xs.map Prod.fst).Perm (ys.map Prod.fst) ∧
        ∀ p ∈ xs, ∀ q ∈ ys, p.1 = q.1 → keyReorder p.2 q.2
  | a, b => a = b
termination_by j _ => sizeOf j
decreasing_by
  · rename_i hmem
    have h1 : p.1 ∈ xs := (List.of_mem_zip hmem).1
    have h2 := List.sizeOf_lt_of_mem h1
    simp only [Json.arr.sizeOf_spec]
    omega
  · rename_i hp _hq _hkey
    have h2 := List.sizeOf_lt_of_mem hp
    have h3 : sizeOf p.2 < sizeOf p := by
      cases p
      simp only [Prod.mk.sizeOf_spec]
      omega
    simp only [Json.obj.sizeOf_spec]
    omega

instance : IsAntisymm String (fun a b : String => a ≤ b) :=
  ⟨fun _ _ => le_antisymm⟩

/-! ### Digest shape lemmas -/

/-- Length of a `String.mk`. -/
theorem stringMk_length (l : List Char) : (String.mk l).length = l.length := rfl

/-- Length of the hex fold. -/
theorem hexFoldr_length (bs : List Nat) :
    (bs.foldr (fun b acc => hexLowerChar (b / 16) :: hexLowerChar (b % 16) :: acc)
      ([] : List Char)).length = 2 * bs.length := by
  induction bs with
  | nil => rfl
  | cons b bs ih => simp [List.foldr_cons, ih]; omega

/-- `hexdigest` length is twice the byte count. -/
theorem bytesToHex_length (bs : List Nat) :
    (bytesToHex bs).length = 2 * bs.length := by
  unfold bytesToHex
  rw [stringMk_length, hexFoldr_length]

/-- Hex digits of byte nibbles are ASCII. -/
theorem hexLowerChar_ascii : ∀ n, n < 16 → (hexLowerChar n).toNat < 128 := by
  decide

/-- `asciiOnly` of a `String.mk`. -/
theorem asciiOnly_mk (l : List Char) :
    asciiOnly (String.mk l) = l.all (fun c => c.toNat < 128) := rfl

/-- The hex fold produces only ASCII characters for genuine bytes. -/
theorem hexFoldr_ascii (bs : List Nat) (h : ∀ b ∈ bs, b < 256) :
    (bs.foldr (fun b acc => hexLowerChar (b / 16) :: hexLowerChar (b % 16) :: acc)
      ([] : List Char)).all (fun c => c.toNat < 128) = true := by
  induction bs with
  | nil => rfl
  | cons b bs ih =>
    have hb : b < 256 := h b (List.mem_cons_self b bs)
    simp only [List.foldr_cons, List.all_cons, Bool.and_eq_true, decide_eq_true_eq]
    refine ⟨hexLowerChar_ascii _ (by omega), hexLowerChar_ascii _ (by omega), ?_⟩
    exact ih fun x hx => h x (List.mem_cons_of_mem b hx)

/-- `hexdigest` of genuine bytes is ASCII. -/
theorem bytesToHex_ascii (bs : List Nat) (h : ∀ b ∈ bs, b < 256) :
    asciiOnly (bytesToHex bs) = true := by
  unfold bytesToHex
  rw [asciiOnly_mk]
  exact hexFoldr_ascii bs h

/-- Word bytes are below 256. -/
theorem wordBytes_lt (w : Nat) : ∀ b ∈ wordBytes w, b < 256 := by
  intro b hb
  simp only [wordBytes, List.mem_cons, List.not_mem_nil, or_false] at hb
  rcases hb with rfl | rfl | rfl | rfl | rfl | rfl | rfl | rfl <;> omega

/-- A digest has 64 bytes. -/
theorem digestBytes_length (st : H8) : (digestBytes st).length = 64 := by
  simp [digestBytes, wordBytes]

/-- Digest bytes are below 256. -/
theorem digestBytes_lt (st : H8) : ∀ b ∈ digestBytes st, b < 256 := by
  intro b hb
  simp only [digestBytes, List.mem_append] at hb
  rcases hb with ((((((h | h) | h) | h) | h) | h) | h) | h <;>
    exact wordBytes_lt _ b h

/-- SHA-512 output has 64 bytes. -/
theorem sha512bytes_length (m : List Nat) : (sha512bytes m).length = 64 :=
  digestBytes_length _

/-- SHA-512 output bytes are below 256. -/
theorem sha512bytes_lt (m : List Nat) : ∀ b ∈ sha512bytes m, b < 256 :=
  digestBytes_lt _

/-- HMAC output has 64 bytes. -/
theorem hmacSha512_length (k m : List Nat) : (hmacSha512 k m).length = 64 :=
  sha512bytes_length _

/-- HMAC output bytes are below 256. -/
theorem hmacSha512_lt (k m : List Nat) : ∀ b ∈ hmacSha512 k m, b < 256 :=
  sha512bytes_lt _

/-- The computed signature is 128 characters long. -/
theorem canonSig_length (secret : String) (v : Json) :
    (canonSig secret v).length = 128 := by
  unfold canonSig
  rw [bytesToHex_length, hmacSha512_length]

/-- The computed signature is nonempty (so it passes the falsy check). -/
theorem canonSig_ne_empty (secret : String) (v : Json) :
    canonSig secret v ≠ "" := by
  intro h
  have := congrArg String.length h
  rw [canonSig_length] at this
  simp at this

/-- The computed signature is ASCII (so `compare_digest` accepts it). -/
theorem canonSig_ascii (secret : String) (v : Json) :
    asciiOnly (canonSig secret v) = true :=
  bytesToHex_ascii _ (hmacSha512_lt _ _)

/-- The verifier accepts the signature it computes itself. -/
theorem verify_canonSig (secret raw : String) (v : Json)
    (h : Json.parse raw = some v) :
    verify_nowpayments_signature secret raw (some (canonSig secret v)) =
      Except.ok true := by
  simp [verify_nowpayments_signature, h, canonSig_ne_empty secret v,
    compareDigest, canonSig_ascii]

/-- The verifier rejects any other ASCII signature string. -/
theorem verify_wrong_sig (secret raw s2 : String) (v : Json)
    (h : Json.parse raw = some v) (hascii : asciiOnly s2 = true)
    (hne : s2 ≠ canonSig secret v) :
    verify_nowpayments_signature secret raw (some s2) = Except.ok false := by
  by_cases he : s2 = ""
  · simp [verify_nowpayments_signature, he]
  · have : (canonSig secret v == s2) = false := by
      simp only [beq_eq_false_iff_ne, ne_eq]
      exact fun hc => hne hc.symm
    simp [verify_nowpayments_signature, he, h, compareDigest,
      canonSig_ascii, hascii, this]

/-- The verifier rejects when the body does not parse. -/
theorem verify_noparse (secret r2 s2 : String) (h : Json.parse r2 = none) :
    verify_nowpayments_signature secret r2 (some s2) = Except.ok false := by
  by_cases he : s2 = "" <;>
    simp [verify_nowpayments_signature, he, h]

/-! ### C1 -/

/-- C1 counterexample.  The claim says that presenting any string other than
the canonical digest makes `verify_nowpayments_signature` return false; but
for the valid body `{}` and the non-ASCII header string `¿` (representable in
an HTTP header, which FastAPI decodes as latin-1), `hmac.compare_digest`
raises `TypeError`, so the function raises instead of returning false. -/
theorem c1_counterexample :
    Json.parse rawEmptyObj = some (Json.obj []) ∧
    ("¿" : String) ≠ canonSig ("k") (Json.obj []) ∧
    verify_nowpayments_signature ("k") rawEmptyObj (some ("¿")) =
      Except.error PyErr.typeError ∧
    verify_nowpayments_signature ("k") rawEmptyObj (some ("¿")) ≠
      Except.ok false := by
  have hp : Json.parse rawEmptyObj = some (Json.obj []) := rfl
  have hne : ("¿" : String) ≠ canonSig ("k") (Json.obj []) := by
    intro h
    have hl := congrArg String.length h
    rw [canonSig_length] at hl
    exact absurd hl (by decide)
  have hv : verify_nowpayments_signature ("k") rawEmptyObj (some ("¿")) =
      Except.error PyErr.typeError := by
    simp [verify_nowpayments_signature, hp, compareDigest, canonSig_ascii,
      asciiOnly]
  exact ⟨hp, hne, hv, by rw [hv]; exact fun h => by injection h⟩

/-- C1 (amended): for a body that parses, the verifier accepts exactly the
hex HMAC-SHA512 digest of the canonical serialization and rejects (returns
false on) every other ASCII string; a missing header or an unparseable body
also yields false.  (The original claim, refuted by `c1_counterexample`, did
not except non-ASCII signature strings, on which `compare_digest` raises.) -/
theorem c1_verify_correct (secret raw sig2 : String) (v : Json)
    (hparse : Json.parse raw = some v) :
    verify_nowpayments_signature secret raw (some (canonSig secret v)) =
        Except.ok true ∧
    (asciiOnly sig2 = true → sig2 ≠ canonSig secret v →
      verify_nowpayments_signature secret raw (some sig2) = Except.ok false) ∧
    verify_nowpayments_signature secret raw none = Except.ok false ∧
    (∀ r2 s2, Json.parse r2 = none →
      verify_nowpayments_signature secret r2 (some s2) = Except.ok false) := by
  refine ⟨verify_canonSig secret raw v hparse, ?_, rfl, ?_⟩
  · intro ha hne
    exact verify_wrong_sig secret raw sig2 v hparse ha hne
  · intro r2 s2 h
    exact verify_noparse secret r2 s2 h

/-- C1 witness: the amended claim instantiated at the body `{}`, the secret
`k`, and the wrong ASCII signature `00`. -/
theorem c1_witness :
    verify_nowpayments_signature ("k") rawEmptyObj
        (some (canonSig ("k") (Json.obj []))) = Except.ok true ∧
    verify_nowpayments_signature ("k") rawEmptyObj (some ("00")) =
      Except.ok false ∧
    verify_nowpayments_signature ("k") rawEmptyObj none = Except.ok false ∧
    verify_nowpayments_signature ("k") ("nope") (some ("x")) =
      Except.ok false := by
  have h := c1_verify_correct ("k") rawEmptyObj ("00") (Json.obj []) rfl
  refine ⟨h.1, h.2.1 (by decide) ?_, h.2.2.1, h.2.2.2 ("nope") ("x") rfl⟩
  intro he
  have hl := congrArg String.length he
  rw [canonSig_length] at hl
  exact absurd hl (by decide)

/-! ### C2: canonical serialization is key-order independent -/

/-- `sortList` is `map sortJson`. -/
theorem sortList_eq_map (l : List Json) : sortList l = l.map sortJson := by
  induction l with
  | nil => rfl
  | cons x xs ih => rw [sortList, List.map_cons, ih]

/-- `sortKVs` maps `sortJson` over the values. -/
theorem sortKVs_eq_map (l : List (String × Json)) :
    sortKVs l = l.map (fun p => (p.1, sortJson p.2)) := by
  induction l with
  | nil => rfl
  | cons p ps ih =>
    cases p
    rw [sortKVs, List.map_cons, ih]

/-- `sortKVs` preserves the key list. -/
theorem sortKVs_keys (l : List (String × Json)) :
    (sortKVs l).map Prod.fst = l.map Prod.fst := by
  rw [sortKVs_eq_map, List.map_map]
  exact List.map_congr_left fun p _ => rfl

/-- Two lists map equally under `f` when `f` agrees on zipped pairs. -/
theorem map_eq_of_zip (f : Json → Json) :
    ∀ xs ys : List Json, xs.length = ys.length →
      (∀ p ∈ xs.zip ys, f p.1 = f p.2) → xs.map f = ys.map f := by
  intro xs
  induction xs with
  | nil =>
    intro ys hl _
    cases ys with
    | nil => rfl
    | cons y ys => simp at hl
  | cons x xs ih =>
    intro ys hl hp
    cases ys with
    | nil => simp at hl
    | cons y ys =>
      simp only [List.map_cons]
      rw [hp (x, y) (by simp [List.zip_cons_cons]),
        ih ys (by simpa using hl)
          (fun p hm => hp p (by simp [List.zip_cons_cons, hm]))]

/-- Member lists with equal key lists and equal values at equal keys are
equal. -/
theorem keyed_ext :
    ∀ A B : List (String × Json), A.map Prod.fst = B.map Prod.fst →
      (∀ p ∈ A, ∀ q ∈ B, p.1 = q.1 → p.2 = q.2) → A = B := by
  intro A
  induction A with
  | nil =>
    intro B hk _
    cases B with
    | nil => rfl
    | cons b B => simp at hk
  | cons a A ih =>
    intro B hk hv
    cases B with
    | nil => simp at hk
    | cons b B =>
      simp only [List.map_cons, List.cons.injEq] at hk
      have h2 : a.2 = b.2 :=
        hv a (List.mem_cons_self a A) b (List.mem_cons_self b B) hk.1
      have htl : A = B :=
        ih B hk.2 fun p hp q hq hpq =>
          hv p (List.mem_cons_of_mem a hp) q (List.mem_cons_of_mem b hq) hpq
      cases a; cases b
      simp_all

/-- Keys of a key-sorted member list are sorted. -/
theorem sorted_keys_insertionSort (l : List (String × Json)) :
    List.Sorted (fun a b : String => a ≤ b)
      ((List.insertionSort pairLe l).map Prod.fst) := by
  have h := List.sorted_insertionSort pairLe l
  exact (List.pairwise_map).2 h

/-- Key-sorting two member lists with permuted key lists yields the same key
list. -/
theorem sorted_keys_eq (xs ys : List (String × Json))
    (hperm : (xs.map Prod.fst).Perm (ys.map Prod.fst)) :
    (List.insertionSort pairLe xs).map Prod.fst =
      (List.insertionSort pairLe ys).map Prod.fst := by
  refine List.eq_of_perm_of_sorted ?_ (sorted_keys_insertionSort xs)
    (sorted_keys_insertionSort ys)
  exact ((List.perm_insertionSort pairLe xs).map Prod.fst).trans
    (hperm.trans ((List.perm_insertionSort pairLe ys).map Prod.fst).symm)

/-- Values that differ only in nested key order have the same recursively
key-sorted form. -/
theorem sortJson_eq_of_keyReorder :
    ∀ n, ∀ a b : Json, sizeOf a ≤ n → keyReorder a b →
      sortJson a = sortJson b := by
  intro n
  induction n with
  | zero =>
    intro a b ha _
    exact absurd ha (by cases a <;> simp)
  | succ n ih =>
    intro a b ha hr
    cases a <;> cases b <;> rw [keyReorder.eq_def] at hr <;> simp only [] at hr
    all_goals try (exact Json.noConfusion hr)
    all_goals try (rw [hr])
    case succ.arr.arr xs ys =>
      obtain ⟨hlen, hpt⟩ := hr
      rw [sortJson, sortJson, sortList_eq_map, sortList_eq_map,
        map_eq_of_zip sortJson xs ys hlen]
      intro p hm
      have h1 : p.1 ∈ xs := (List.of_mem_zip hm).1
      have h2 := List.sizeOf_lt_of_mem h1
      have h3 : sizeOf (Json.arr xs) ≤ n + 1 := ha
      rw [Json.arr.sizeOf_spec] at h3
      exact ih p.1 p.2 (by omega) (hpt p hm)
    case succ.obj.obj xs ys =>
      obtain ⟨hnx, hny, hperm, hvals⟩ := hr
      rw [sortJson, sortJson]
      congr 1
      refine keyed_ext _ _ ?_ ?_
      · refine sorted_keys_eq (sortKVs xs) (sortKVs ys) ?_
        rw [sortKVs_keys, sortKVs_keys]
        exact hperm
      · intro p hp q hq hpq
        have hp1 : p ∈ sortKVs xs :=
          ((List.perm_insertionSort pairLe _).mem_iff).1 hp
        have hq1 : q ∈ sortKVs ys :=
          ((List.perm_insertionSort pairLe _).mem_iff).1 hq
        rw [sortKVs_eq_map] at hp1 hq1
        obtain ⟨p0, hp0, rfl⟩ := List.mem_map.1 hp1
        obtain ⟨q0, hq0, rfl⟩ := List.mem_map.1 hq1
        have hk := hvals p0 hp0 q0 hq0 hpq
        have h2 := List.sizeOf_lt_of_mem hp0
        have h3 : sizeOf p0.2 < sizeOf p0 := by
          cases p0
          simp only [Prod.mk.sizeOf_spec]
          omega
        have h4 : sizeOf (Json.obj xs) ≤ n + 1 := ha
        rw [Json.obj.sizeOf_spec] at h4
        exact ih p0.2 q0.2 (by omega) hk

/-- `keyReorder` is reflexive on numerals. -/
theorem keyReorder_num_self (n : Int) :
    keyReorder (Json.num n) (Json.num n) := by
  rw [keyReorder.eq_def]

/-- C2: two parsed JSON values that differ only in the order of object keys
(at any nesting level) have identical canonical serializations, and any
signature header verifies for one body exactly when it verifies for the
other. -/
theorem c2_canonicalization_key_order (secret r1 r2 : String) (a b : Json)
    (sig : Option String) (h1 : Json.parse r1 = some a)
    (h2 : Json.parse r2 = some b) (hr : keyReorder a b) :
    dumpsCanon a = dumpsCanon b ∧
      verify_nowpayments_signature secret r1 sig =
        verify_nowpayments_signature secret r2 sig := by
  have hs := sortJson_eq_of_keyReorder (sizeOf a) a b le_rfl hr
  have hd : dumpsCanon a = dumpsCanon b := by
    unfold dumpsCanon
    rw [hs]
  refine ⟨hd, ?_⟩
  have hcs : canonSig secret a = canonSig secret b := by
    unfold canonSig
    rw [hd]
  cases sig with
  | none => rfl
  | some s =>
    by_cases he : s = "" <;>
      simp [verify_nowpayments_signature, he, h1, h2, hcs]

/-- The nested fixtures differ only in key order. -/
theorem keyReorder_nest : keyReorder vNest1 vNest2 := by
  rw [vNest1, vNest2, keyReorder.eq_def]
  simp only []
  refine ⟨by decide, by decide, ?_, ?_⟩
  · exact List.Perm.swap ("a") ("b") []
  · intro p hp q hq hpq
    simp only [List.mem_cons, List.not_mem_nil, or_false] at hp hq
    rcases hp with rfl | rfl <;> rcases hq with rfl | rfl <;> simp at hpq ⊢
    · exact keyReorder_num_self 1
    · rw [keyReorder.eq_def]
      simp only []
      refine ⟨by decide, by decide, ?_, ?_⟩
      · exact List.Perm.swap ("x") ("y") []
      · intro p2 hp2 q2 hq2 hpq2
        simp only [List.mem_cons, List.not_mem_nil, or_false] at hp2 hq2
        rcases hp2 with rfl | rfl <;> rcases hq2 with rfl | rfl <;>
          simp at hpq2 ⊢
        · exact keyReorder_num_self 2
        · exact keyReorder_num_self 3

/-- C2 witness: the claim instantiated at two concrete bodies whose two
object levels are each reordered. -/
theorem c2_witness :
    dumpsCanon vNest1 = dumpsCanon vNest2 ∧
      verify_nowpayments_signature ("k") rawNest1 (some ("z")) =
        verify_nowpayments_signature ("k") rawNest2 (some ("z")) :=
  c2_canonicalization_key_order ("k") rawNest1 rawNest2 vNest1 vNest2
    (some ("z")) rfl rfl keyReorder_nest

/-! ### C10 -/

/-- C10: calling `attach_invoice` or `set_order_status` with an order id
that matches no row completes without error and leaves the store identical
(the UPDATE matches zero rows). -/
theorem c10_update_unknown_id_noop (db : DB) (oid : Nat) (inv url st : String)
    (h : ∀ o ∈ db.orders, o.id ≠ oid) :
    attach_invoice oid inv url db = db ∧ set_order_status oid st db = db := by
  have hmap1 : db.orders.map (fun o =>
      if o.id = oid then
        { o with invoice_id := some inv, invoice_url := some url,
                 status := "invoice_created" }
      else o) = db.orders := by
    rw [List.map_congr_left (g := id) ?_, List.map_id]
    intro o ho
    simp [h o ho]
  have hmap2 : db.orders.map (fun o =>
      if o.id = oid then { o with status := st } else o) = db.orders := by
    rw [List.map_congr_left (g := id) ?_, List.map_id]
    intro o ho
    simp [h o ho]
  cases db with
  | mk nid ords pays =>
    exact ⟨by simp only [attach_invoice] at hmap1 ⊢; rw [hmap1],
           by simp only [set_order_status] at hmap2 ⊢; rw [hmap2]⟩

/-- C10 witness: updating absent order id 2 in the one-order store. -/
theorem c10_witness :
    attach_invoice 2 ("i2") ("u2") dbOneInv = dbOneInv ∧
      set_order_status 2 ("zzz") dbOneInv = dbOneInv :=
  c10_update_unknown_id_noop dbOneInv 2 ("i2") ("u2") ("zzz") (by decide)

/-! ### C9 -/

/-- C9 counterexample.  The claim asserts that in every reachable store each
non-null invoice_id is held by at most one Order; but the schema declares no
UNIQUE constraint on `invoice_id` and `attach_invoice` performs no
uniqueness check, so a reachable store has two orders holding invoice id
`dup`, of which `get_order_by_invoice` returns only the first (id 1). -/
theorem c9_counterexample :
    Reachable dbDup ∧
      (dbDup.orders.filter (fun o => o.invoice_id == some ("dup"))).length = 2 ∧
      (get_order_by_invoice ("dup") dbDup).map (fun o => o.id) = some 1 := by
  refine ⟨?_, by decide, by decide⟩
  have h0 := Reachable.start
  have h1 := Reachable.createStep ("t0") 100 5 h0
  have h2 := Reachable.createStep ("t0") 101 7 h1
  have h3 := Reachable.attachStep 1 ("dup") ("u1") h2
  have h4 := Reachable.attachStep 2 ("dup") ("u2") h3
  exact h4

/-- C9 (amended): `get_order_by_invoice` returns the first row whose
invoice_id equals the argument; whenever at most one order holds the queried
invoice id — which the store does not itself enforce — the lookup is an
exact, unique match: it returns precisely the matching Order, and returns
not-found exactly when no order matches. -/
theorem c9_unique_lookup (db : DB) (inv : String) (o : Order)
    (huniq : ∀ o1 ∈ db.orders, ∀ o2 ∈ db.orders,
      o1.invoice_id = some inv → o2.invoice_id = some inv → o1 = o2) :
    (get_order_by_invoice inv db = some o ↔
      o ∈ db.orders ∧ o.invoice_id = some inv) ∧
    (get_order_by_invoice inv db = none ↔
      ∀ o2 ∈ db.orders, o2.invoice_id ≠ some inv) := by
  constructor
  · constructor
    · intro h
      have hmem := List.mem_of_find?_eq_some h
      have hp := List.find?_some h
      simp only [beq_iff_eq] at hp
      exact ⟨hmem, hp⟩
    · rintro ⟨hmem, hinv⟩
      cases hfind : get_order_by_invoice inv db with
      | none =>
        rw [get_order_by_invoice, List.find?_eq_none] at hfind
        have := hfind o hmem
        simp only [beq_iff_eq] at this
        exact absurd hinv this
      | some x =>
        have hxm := List.mem_of_find?_eq_some hfind
        have hxp := List.find?_some hfind
        simp only [beq_iff_eq] at hxp
        exact congrArg some (huniq x hxm o hmem hxp hinv)
  · rw [get_order_by_invoice, List.find?_eq_none]
    constructor
    · intro h o2 hm
      have := h o2 hm
      simpa using this
    · intro h o2 hm
      simpa using h o2 hm

/-- C9 witness: the amended claim at the one-order store. -/
theorem c9_witness :
    (get_order_by_invoice ("inv1") dbOneInv = some ordFix ↔
      ordFix ∈ dbOneInv.orders ∧ ordFix.invoice_id = some ("inv1")) ∧
    (get_order_by_invoice ("inv1") dbOneInv = none ↔
      ∀ o2 ∈ dbOneInv.orders, o2.invoice_id ≠ some ("inv1")) :=
  c9_unique_lookup dbOneInv ("inv1") ordFix (by decide)

/-! ### C6 -/

theorem upd_key (pid s r t : String) (x : Payment) :
    (if x.payment_id == pid then
      { x with status := s, raw_json := r, updated_at := t }
     else x).payment_id = x.payment_id := by
  split <;> rfl

theorem filter_key_singleton (pid : String) :
    ∀ l : List Payment, (l.map Payment.payment_id).Nodup →
      l.any (fun p => p.payment_id == pid) = true →
      ∃ x ∈ l, x.payment_id = pid ∧
        l.filter (fun p => p.payment_id == pid) = [x] := by
  intro l
  induction l with
  | nil => intro _ hany; simp at hany
  | cons p l ih =>
    intro hwf hany
    simp only [List.map_cons, List.nodup_cons] at hwf
    cases hc : (p.payment_id == pid) with
    | true =>
      simp only [beq_iff_eq] at hc
      refine ⟨p, List.mem_cons_self p l, hc, ?_⟩
      rw [List.filter_cons_of_pos (by simp [hc]), List.filter_eq_nil_iff.2 ?_]
      intro x hx
      simp only [beq_iff_eq]
      intro hxk
      apply hwf.1
      rw [hc, ← hxk]
      exact List.mem_map_of_mem Payment.payment_id hx
    | false =>
      simp only [List.any_cons, hc, Bool.false_or] at hany
      obtain ⟨x, hxm, hxk, hxf⟩ := ih hwf.2 hany
      refine ⟨x, List.mem_cons_of_mem p hxm, hxk, ?_⟩
      rw [List.filter_cons_of_neg (by simp [hc]), hxf]

theorem upsert_filter (db : DB) (pid : String) (o : Nat) (s : String)
    (r : Json) (t : String)
    (hwf : (db.payments.map Payment.payment_id).Nodup) :
    ∃ oid,
      ((upsert_payment pid o s r t db).payments.filter
        (fun p => p.payment_id == pid)) =
          [⟨pid, oid, s, dumpsPlain r, t⟩] ∧
      ((upsert_payment pid o s r t db).payments.map Payment.payment_id).Nodup := by
  unfold upsert_payment
  cases hany : db.payments.any (fun p => p.payment_id == pid) with
  | false =>
    have hnone : ∀ x ∈ db.payments, ¬(x.payment_id == pid) = true :=
      List.any_eq_false.1 hany
    simp only [hany, Bool.false_eq_true, ite_false]
    refine ⟨o, ?_, ?_⟩
    · rw [List.filter_append, List.filter_eq_nil_iff.2 hnone, List.nil_append]
      simp
    · rw [List.map_append, List.nodup_append]
      refine ⟨hwf, by simp, ?_⟩
      intro a ha hb
      simp only [List.map_cons, List.map_nil, List.mem_singleton] at hb
      obtain ⟨x, hx, hxk⟩ := List.mem_map.1 ha
      apply hnone x hx
      simp [hxk, hb]
  | true =>
    simp only [hany, ite_true]
    obtain ⟨x, hxm, hxk, hxf⟩ := filter_key_singleton pid db.payments hwf hany
    have hcomp : ∀ y ∈ db.payments,
        ((fun p => p.payment_id == pid) ∘ fun p =>
          if p.payment_id == pid then
            { p with status := s, raw_json := dumpsPlain r, updated_at := t }
          else p) y = (y.payment_id == pid) := by
      intro y _
      simp only [Function.comp_apply, upd_key]
    refine ⟨x.order_id, ?_, ?_⟩
    · rw [List.filter_map, List.filter_congr hcomp, hxf, List.map_cons,
        List.map_nil]
      have : (if x.payment_id == pid then
          { x with status := s, raw_json := dumpsPlain r, updated_at := t }
        else x) = (⟨pid, x.order_id, s, dumpsPlain r, t⟩ : Payment) := by
        rw [if_pos (by simp [hxk])]
        cases x
        simp_all
      rw [this]
    · have h2 : db.payments.map (Payment.payment_id ∘ (fun p =>
          if p.payment_id == pid then
            { p with status := s, raw_json := dumpsPlain r, updated_at := t }
          else p)) = db.payments.map Payment.payment_id :=
        List.map_congr_left fun y _ => upd_key pid s (dumpsPlain r) t y
      rw [List.map_map, h2]
      exact hwf

theorem upsert_any (db : DB) (pid : String) (o : Nat) (s : String) (r : Json)
    (t : String) :
    ((upsert_payment pid o s r t db).payments.any
      (fun p => p.payment_id == pid)) = true := by
  unfold upsert_payment
  cases hany : db.payments.any (fun p => p.payment_id == pid) with
  | false =>
    simp only [hany, Bool.false_eq_true, ite_false]
    simp [List.any_append]
  | true =>
    simp only [hany, ite_true]
    rw [List.any_map]
    rw [List.any_eq_true] at hany ⊢
    obtain ⟨x, hx, hpx⟩ := hany
    refine ⟨x, hx, ?_⟩
    simp only [Function.comp_apply, upd_key]
    exact hpx

theorem upsert_length_of_any (db : DB) (pid : String) (o : Nat) (s : String)
    (r : Json) (t : String)
    (h : db.payments.any (fun p => p.payment_id == pid) = true) :
    (upsert_payment pid o s r t db).payments.length = db.payments.length := by
  unfold upsert_payment
  rw [if_pos h]
  exact List.length_map _ _

/-- C6: upserting twice with the same payment_id and different statuses
leaves exactly one stored PaymentEvent for that payment_id, whose status,
raw_json and updated_at come from the second call, and the second call adds
no row. -/
theorem c6_upsert_twice (db : DB) (pid : String) (o1 o2 : Nat)
    (s1 s2 : String) (r1 r2 : Json) (t1 t2 : String)
    (hwf : (db.payments.map Payment.payment_id).Nodup) (_hne : s1 ≠ s2) :
    ∃ oid,
      ((upsert_payment pid o2 s2 r2 t2
          (upsert_payment pid o1 s1 r1 t1 db)).payments.filter
        (fun p => p.payment_id == pid)) = [⟨pid, oid, s2, dumpsPlain r2, t2⟩] ∧
      (upsert_payment pid o2 s2 r2 t2
          (upsert_payment pid o1 s1 r1 t1 db)).payments.length =
        (upsert_payment pid o1 s1 r1 t1 db).payments.length := by
  obtain ⟨oid1, hf1, hwf1⟩ := upsert_filter db pid o1 s1 r1 t1 hwf
  obtain ⟨oid2, hf2, hwf2⟩ :=
    upsert_filter (upsert_payment pid o1 s1 r1 t1 db) pid o2 s2 r2 t2 hwf1
  exact ⟨oid2, hf2,
    upsert_length_of_any _ pid o2 s2 r2 t2 (upsert_any db pid o1 s1 r1 t1)⟩

/-- C6 witness: two upserts of payment `p1` against the one-order store. -/
theorem c6_witness :
    ∃ oid,
      ((upsert_payment ("p1") 1 ("confirmed") vConfirmed ("t2")
          (upsert_payment ("p1") 1 ("waiting") vConfirmed ("t1")
            dbOneInv)).payments.filter
        (fun p => p.payment_id == ("p1"))) =
          [⟨"p1", oid, "confirmed", dumpsPlain vConfirmed, "t2"⟩] ∧
      (upsert_payment ("p1") 1 ("confirmed") vConfirmed ("t2")
          (upsert_payment ("p1") 1 ("waiting") vConfirmed ("t1")
            dbOneInv)).payments.length =
        (upsert_payment ("p1") 1 ("waiting") vConfirmed ("t1")
          dbOneInv).payments.length :=
  c6_upsert_twice dbOneInv ("p1") 1 1 ("waiting") ("confirmed") vConfirmed
    vConfirmed ("t1") ("t2") (by decide) (by decide)

/-! ### C3, C4, C5: handler acknowledgment and notifier-failure paths -/

theorem ipn_reduce (secret now : String) (tg : Option Bool) (raw : String)
    (sig : Option String) (db : DB) (data : Json) (st pid iid : String)
    (hv : verify_nowpayments_signature secret raw sig = Except.ok true)
    (hp : Json.parse raw = some data)
    (hx : extractFields data = Except.ok (st, pid, iid)) :
    nowpayments_ipn secret now tg raw sig db =
      reconcile now tg st pid iid data db := by
  simp only [nowpayments_ipn, hv, hp, hx]

theorem ipn_extract_error (secret now : String) (tg : Option Bool)
    (raw : String) (sig : Option String) (db : DB) (data : Json) (e : PyErr)
    (hv : verify_nowpayments_signature secret raw sig = Except.ok true)
    (hp : Json.parse raw = some data)
    (hx : extractFields data = Except.error e) :
    nowpayments_ipn secret now tg raw sig db =
      (HttpResult.serverError500, db) := by
  simp only [nowpayments_ipn, hv, hp, hx]

/-- C3 (amended): a correctly-signed notification that parses and whose three
fields extract without raising, with an empty extracted payment_id or
invoice_id, is acknowledged with 200 and no store mutation. -/
theorem c3_empty_ids_acknowledged (secret now : String) (tg : Option Bool)
    (raw : String) (sig : Option String) (db : DB) (data : Json)
    (st pid iid : String)
    (hv : verify_nowpayments_signature secret raw sig = Except.ok true)
    (hp : Json.parse raw = some data)
    (hx : extractFields data = Except.ok (st, pid, iid))
    (hempty : pid = "" ∨ iid = "") :
    nowpayments_ipn secret now tg raw sig db = (HttpResult.ok200, db) := by
  rw [ipn_reduce secret now tg raw sig db data st pid iid hv hp hx]
  rcases hempty with rfl | rfl <;> simp [reconcile]

/-- C3 witness: a signed notification carrying no payment_id alias is
acknowledged and the store is untouched. -/
theorem c3_witness :
    nowpayments_ipn ("k") ("t1") (some true) rawNoPid
      (some (canonSig ("k") vNoPid)) dbOneInv = (HttpResult.ok200, dbOneInv) :=
  c3_empty_ids_acknowledged ("k") ("t1") (some true) rawNoPid
    (some (canonSig ("k") vNoPid)) dbOneInv vNoPid ("waiting") ("") ("inv1")
    (verify_canonSig ("k") rawNoPid vNoPid rfl) rfl rfl (Or.inl rfl)

/-- C3 counterexample.  The claim says every correctly-signed notification
with an empty extracted payment_id is answered 200; but a signed object body
whose status field is the integer 1 (and which has no payment_id alias, so
the extracted payment_id is empty) makes `(1).lower()` raise AttributeError
before the empty-id check, so the handler answers 500, not 200 (the store is
still untouched). -/
theorem c3_counterexample :
    verify_nowpayments_signature ("k") rawStatusInt
        (some (canonSig ("k") vStatusInt)) = Except.ok true ∧
    ((getAlias vStatusInt ("payment_id") ("id")).map pyStr) =
      Except.ok ("") ∧
    nowpayments_ipn ("k") ("t1") (some true) rawStatusInt
        (some (canonSig ("k") vStatusInt)) dbOneInv =
      (HttpResult.serverError500, dbOneInv) ∧
    HttpResult.serverError500 ≠ HttpResult.ok200 :=
  ⟨verify_canonSig ("k") rawStatusInt vStatusInt rfl, rfl,
   ipn_extract_error ("k") ("t1") (some true) rawStatusInt
     (some (canonSig ("k") vStatusInt)) dbOneInv vStatusInt
     PyErr.attributeError
     (verify_canonSig ("k") rawStatusInt vStatusInt rfl) rfl rfl,
   by decide⟩

/-- C4 (amended): a correctly-signed notification that parses and extracts
without raising, with nonempty ids but an invoice_id matching no order, is
acknowledged with 200 and the store is unchanged (no row created or
modified). -/
theorem c4_unknown_invoice_acknowledged (secret now : String)
    (tg : Option Bool) (raw : String) (sig : Option String) (db : DB)
    (data : Json) (st pid iid : String)
    (hv : verify_nowpayments_signature secret raw sig = Except.ok true)
    (hp : Json.parse raw = some data)
    (hx : extractFields data = Except.ok (st, pid, iid))
    (hpid : pid ≠ "") (hiid : iid ≠ "")
    (hnone : get_order_by_invoice iid db = none) :
    nowpayments_ipn secret now tg raw sig db = (HttpResult.ok200, db) := by
  rw [ipn_reduce secret now tg raw sig db data st pid iid hv hp hx]
  simp [reconcile, hpid, hiid, hnone]

/-- C4 witness: a signed confirmed notification for invoice `inv1` against
the empty store is acknowledged untouched. -/
theorem c4_witness :
    nowpayments_ipn ("k") ("t1") (some true) rawConfirmed
      (some (canonSig ("k") vConfirmed)) init_db =
        (HttpResult.ok200, init_db) :=
  c4_unknown_invoice_acknowledged ("k") ("t1") (some true) rawConfirmed
    (some (canonSig ("k") vConfirmed)) init_db vConfirmed ("confirmed")
    ("p1") ("inv1") (verify_canonSig ("k") rawConfirmed vConfirmed rfl) rfl
    rfl (by decide) (by decide) rfl

/-- C4 counterexample.  The claim says every correctly-signed notification
whose invoice_id matches no order gets a 200; but a signed body with
nonempty ids whose status field is the integer 2 raises in `.lower()` before
the lookup, so the handler answers 500 (while indeed writing nothing). -/
theorem c4_counterexample :
    verify_nowpayments_signature ("k") rawNoMatch
        (some (canonSig ("k") vNoMatch)) = Except.ok true ∧
    get_order_by_invoice ("x") init_db = none ∧
    nowpayments_ipn ("k") ("t1") (some true) rawNoMatch
        (some (canonSig ("k") vNoMatch)) init_db =
      (HttpResult.serverError500, init_db) ∧
    HttpResult.serverError500 ≠ HttpResult.ok200 :=
  ⟨verify_canonSig ("k") rawNoMatch vNoMatch rfl, rfl,
   ipn_extract_error ("k") ("t1") (some true) rawNoMatch
     (some (canonSig ("k") vNoMatch)) init_db vNoMatch
     PyErr.attributeError
     (verify_canonSig ("k") rawNoMatch vNoMatch rfl) rfl rfl,
   by decide⟩

/-- C5 (amended): when a correctly-signed confirmed/finished notification
matches an order and the bot handle is present but `send_message` raises,
the handler's store writes (the upserted PaymentEvent and the overwritten
order status, committed before the send) are exactly those of a successful
delivery, but the failure propagates as a 500 response instead of the 200
the claim asserts. -/
theorem c5_notifier_failure_after_writes (secret now : String) (raw : String)
    (sig : Option String) (db : DB) (data : Json) (st pid iid : String)
    (o : Order)
    (hv : verify_nowpayments_signature secret raw sig = Except.ok true)
    (hp : Json.parse raw = some data)
    (hx : extractFields data = Except.ok (st, pid, iid))
    (hpid : pid ≠ "") (hiid : iid ≠ "")
    (horder : get_order_by_invoice iid db = some o)
    (hst : st = "confirmed" ∨ st = "finished") :
    nowpayments_ipn secret now (some false) raw sig db =
      (HttpResult.serverError500,
        set_order_status o.id st (upsert_payment pid o.id st data now db)) ∧
    nowpayments_ipn secret now (some true) raw sig db =
      (HttpResult.ok200,
        set_order_status o.id st (upsert_payment pid o.id st data now db)) := by
  constructor <;>
    · rw [ipn_reduce secret now _ raw sig db data st pid iid hv hp hx]
      rcases hst with rfl | rfl <;> simp [reconcile, hpid, hiid, horder]

/-- C5 witness: the amended claim at a concrete confirmed notification for
the one-order store. -/
theorem c5_witness :
    nowpayments_ipn ("k") ("t1") (some false) rawConfirmed
        (some (canonSig ("k") vConfirmed)) dbOneInv =
      (HttpResult.serverError500,
        set_order_status ordFix.id ("confirmed")
          (upsert_payment ("p1") ordFix.id ("confirmed") vConfirmed ("t1")
            dbOneInv)) ∧
    nowpayments_ipn ("k") ("t1") (some true) rawConfirmed
        (some (canonSig ("k") vConfirmed)) dbOneInv =
      (HttpResult.ok200,
        set_order_status ordFix.id ("confirmed")
          (upsert_payment ("p1") ordFix.id ("confirmed") vConfirmed ("t1")
            dbOneInv)) :=
  c5_notifier_failure_after_writes ("k") ("t1") rawConfirmed
    (some (canonSig ("k") vConfirmed)) dbOneInv vConfirmed ("confirmed")
    ("p1") ("inv1") ordFix
    (verify_canonSig ("k") rawConfirmed vConfirmed rfl) rfl rfl (by decide)
    (by decide) rfl (Or.inl rfl)

/-- C5 counterexample.  The claim says a notifier delivery failure is
swallowed and the webhook still answers 200; but the `send_message` call is
not wrapped in any try/except, so its exception propagates and the gateway
sees a 500 (the already-committed writes survive). -/
theorem c5_counterexample :
    (nowpayments_ipn ("k") ("t1") (some false) rawConfirmed
        (some (canonSig ("k") vConfirmed)) dbOneInv).1 =
      HttpResult.serverError500 ∧
    HttpResult.serverError500 ≠ HttpResult.ok200 := by
  refine ⟨?_, by decide⟩
  rw [ipn_reduce ("k") ("t1") (some false) rawConfirmed
    (some (canonSig ("k") vConfirmed)) dbOneInv vConfirmed ("confirmed")
    ("p1") ("inv1")
    (verify_canonSig ("k") rawConfirmed vConfirmed rfl) rfl rfl]
  rfl

/-! ### C7 support -/

theorem upsert_orders (pid : String) (oid : Nat) (st : String) (raw : Json)
    (now : String) (db : DB) :
    (upsert_payment pid oid st raw now db).orders = db.orders := by
  unfold upsert_payment
  split <;> rfl

theorem upsert_nextId (pid : String) (oid : Nat) (st : String) (raw : Json)
    (now : String) (db : DB) :
    (upsert_payment pid oid st raw now db).nextOrderId = db.nextOrderId := by
  unfold upsert_payment
  split <;> rfl

theorem set_status_payments (oid : Nat) (st : String) (db : DB) :
    (set_order_status oid st db).payments = db.payments := rfl

theorem set_status_nextId (oid : Nat) (st : String) (db : DB) :
    (set_order_status oid st db).nextOrderId = db.nextOrderId := rfl

theorem find?_pred_congr {α : Type} (p q : α → Bool) :
    ∀ l : List α, (∀ a ∈ l, p a = q a) → l.find? p = l.find? q := by
  intro l
  induction l with
  | nil => intro _; rfl
  | cons a l ih =>
    intro h
    have ha := h a (List.mem_cons_self a l)
    cases hpa : p a with
    | true =>
      rw [List.find?_cons_of_pos _ hpa, List.find?_cons_of_pos _ (ha ▸ hpa)]
    | false =>
      rw [List.find?_cons_of_neg _ (by simp [hpa]),
        List.find?_cons_of_neg _ (by simp [← ha, hpa])]
      exact ih fun x hx => h x (List.mem_cons_of_mem a hx)

theorem get_order_by_invoice_upsert (iid pid : String) (oid : Nat)
    (st : String) (raw : Json) (now : String) (db : DB) :
    get_order_by_invoice iid (upsert_payment pid oid st raw now db) =
      get_order_by_invoice iid db := by
  unfold get_order_by_invoice
  rw [upsert_orders]

theorem get_order_by_invoice_set_status (iid : String) (oid : Nat)
    (st : String) (db : DB) :
    get_order_by_invoice iid (set_order_status oid st db) =
      (get_order_by_invoice iid db).map
        (fun o => if o.id = oid then { o with status := st } else o) := by
  unfold get_order_by_invoice set_order_status
  rw [List.find?_map]
  congr 1
  apply find?_pred_congr
  intro o _
  simp only [Function.comp_apply]
  split <;> rfl

theorem upsert_post (pid : String) (oid : Nat) (st : String) (raw : Json)
    (now : String) (db : DB) :
    ∀ x ∈ (upsert_payment pid oid st raw now db).payments,
      x.payment_id = pid → x.status = st ∧ x.raw_json = dumpsPlain raw := by
  unfold upsert_payment
  cases hany : db.payments.any (fun p => p.payment_id == pid) with
  | false =>
    simp only [hany, Bool.false_eq_true, ite_false]
    intro x hx hk
    rcases List.mem_append.1 hx with hmem | hmem
    · exact absurd (by simp [hk]) (List.any_eq_false.1 hany x hmem)
    · simp only [List.mem_singleton] at hmem
      subst hmem
      exact ⟨rfl, rfl⟩
  | true =>
    simp only [hany, ite_true]
    intro x hx hk
    obtain ⟨y, hy, rfl⟩ := List.mem_map.1 hx
    cases hc : (y.payment_id == pid) with
    | true => simp [hc]
    | false =>
      rw [if_neg (by simp [hc])] at hk
      exact absurd hk (by simpa using hc)

theorem set_status_map_idem (oid : Nat) (st : String) (l : List Order) :
    (l.map (fun o => if o.id = oid then { o with status := st } else o)).map
      (fun o => if o.id = oid then { o with status := st } else o) =
      l.map (fun o => if o.id = oid then { o with status := st } else o) := by
  rw [List.map_map]
  apply List.map_congr_left
  intro x _
  simp only [Function.comp_apply]
  by_cases h : x.id = oid
  · simp [h]
  · simp [h]

theorem set_status_idem_after (oid : Nat) (st : String) (dbA dbB : DB)
    (hAB : dbA.orders = (set_order_status oid st dbB).orders) :
    (set_order_status oid st dbA).orders = dbA.orders := by
  have : (set_order_status oid st dbA).orders = dbA.orders.map
      (fun o => if o.id = oid then { o with status := st } else o) := rfl
  rw [this, hAB]
  have h2 : (set_order_status oid st dbB).orders = dbB.orders.map
      (fun o => if o.id = oid then { o with status := st } else o) := rfl
  rw [h2]
  exact set_status_map_idem oid st dbB.orders

theorem upsert_payments_of_any (pid : String) (oid : Nat) (st : String)
    (raw : Json) (now : String) (db : DB)
    (h : db.payments.any (fun p => p.payment_id == pid) = true) :
    (upsert_payment pid oid st raw now db).payments = db.payments.map
      (fun p => if p.payment_id == pid then
        { p with status := st, raw_json := dumpsPlain raw, updated_at := now }
      else p) := by
  unfold upsert_payment
  rw [if_pos h]

theorem forall₂_map_self {α : Type} (rel : α → α → Prop) (f : α → α) :
    ∀ l : List α, (∀ x ∈ l, rel x (f x)) → List.Forall₂ rel l (l.map f) := by
  intro l
  induction l with
  | nil => intro _; exact List.Forall₂.nil
  | cons a l ih =>
    intro h
    exact List.Forall₂.cons (h a (List.mem_cons_self a l))
      (ih fun x hx => h x (List.mem_cons_of_mem a hx))

theorem reconcile_empty (now : String) (tg : Option Bool)
    (st pid iid : String) (data : Json) (db : DB)
    (hem : pid = "" ∨ iid = "") :
    reconcile now tg st pid iid data db = (HttpResult.ok200, db) := by
  rcases hem with rfl | rfl <;> simp [reconcile]

theorem reconcile_unknown (now : String) (tg : Option Bool)
    (st pid iid : String) (data : Json) (db : DB)
    (hpid : pid ≠ "") (hiid : iid ≠ "")
    (hnone : get_order_by_invoice iid db = none) :
    reconcile now tg st pid iid data db = (HttpResult.ok200, db) := by
  simp [reconcile, hpid, hiid, hnone]

theorem reconcile_found (now : String) (tg : Option Bool)
    (st pid iid : String) (data : Json) (db : DB) (o : Order)
    (hpid : pid ≠ "") (hiid : iid ≠ "")
    (ho : get_order_by_invoice iid db = some o) :
    reconcile now tg st pid iid data db =
      (if tg = some false ∧ (st = "confirmed" ∨ st = "finished") then
         HttpResult.serverError500
       else HttpResult.ok200,
       set_order_status o.id st (upsert_payment pid o.id st data now db)) := by
  cases tg with
  | none => simp [reconcile, hpid, hiid, ho]
  | some sendOk =>
    cases sendOk <;> by_cases hc1 : st = "confirmed" <;>
      by_cases hc2 : st = "finished" <;>
        simp [reconcile, hpid, hiid, ho, hc1, hc2]

/-- C7: replaying a valid notification whose first processing was answered
200 is idempotent: the second call is also answered 200, creates no new
PaymentEvent row, leaves the orders (hence the matched Order's status) and
the AUTOINCREMENT counter unchanged, and changes each PaymentEvent row at
most in `updated_at`. -/
theorem c7_replay_idempotent (secret now1 now2 : String) (tg : Option Bool)
    (raw : String) (sig : Option String) (db db1 : DB)
    (h : nowpayments_ipn secret now1 tg raw sig db = (HttpResult.ok200, db1)) :
    ∃ db2,
      nowpayments_ipn secret now2 tg raw sig db1 = (HttpResult.ok200, db2) ∧
        db2.orders = db1.orders ∧ db2.nextOrderId = db1.nextOrderId ∧
        db2.payments.length = db1.payments.length ∧
        List.Forall₂ (fun p q => p.payment_id = q.payment_id ∧
          p.order_id = q.order_id ∧ p.status = q.status ∧
          p.raw_json = q.raw_json) db1.payments db2.payments := by
  cases hv : verify_nowpayments_signature secret raw sig with
  | error e =>
    simp only [nowpayments_ipn, hv] at h
    exact absurd h (by simp)
  | ok b =>
    cases b with
    | false =>
      simp only [nowpayments_ipn, hv] at h
      exact absurd h (by simp)
    | true =>
      cases hp : Json.parse raw with
      | none =>
        simp only [nowpayments_ipn, hv, hp] at h
        exact absurd h (by simp)
      | some data =>
        cases hx : extractFields data with
        | error e =>
          simp only [nowpayments_ipn, hv, hp, hx] at h
          exact absurd h (by simp)
        | ok trip =>
          obtain ⟨st, pid, iid⟩ := trip
          rw [ipn_reduce secret now1 tg raw sig db data st pid iid hv hp hx]
            at h
          rw [ipn_reduce secret now2 tg raw sig db1 data st pid iid hv hp hx]
          by_cases h1 : pid = ""
          · rw [reconcile_empty now1 tg st pid iid data db (Or.inl h1)] at h
            injection h with _ h2
            subst h2
            rw [reconcile_empty now2 tg st pid iid data db (Or.inl h1)]
            exact ⟨db, rfl, rfl, rfl, rfl,
              (List.forall₂_same).2 fun x _ => ⟨rfl, rfl, rfl, rfl⟩⟩
          by_cases h2 : iid = ""
          · rw [reconcile_empty now1 tg st pid iid data db (Or.inr h2)] at h
            injection h with _ hdb
            subst hdb
            rw [reconcile_empty now2 tg st pid iid data db (Or.inr h2)]
            exact ⟨db, rfl, rfl, rfl, rfl,
              (List.forall₂_same).2 fun x _ => ⟨rfl, rfl, rfl, rfl⟩⟩
          cases horder : get_order_by_invoice iid db with
          | none =>
            rw [reconcile_unknown now1 tg st pid iid data db h1 h2 horder]
              at h
            injection h with _ hdb
            subst hdb
            rw [reconcile_unknown now2 tg st pid iid data db h1 h2 horder]
            exact ⟨db, rfl, rfl, rfl, rfl,
              (List.forall₂_same).2 fun x _ => ⟨rfl, rfl, rfl, rfl⟩⟩
          | some o =>
            rw [reconcile_found now1 tg st pid iid data db o h1 h2 horder]
              at h
            have hC : ¬(tg = some false ∧
                (st = "confirmed" ∨ st = "finished")) := by
              intro hc
              rw [if_pos hc] at h
              exact absurd h (by simp)
            rw [if_neg hC] at h
            injection h with _ hdb
            subst hdb
            have hany2 : (set_order_status o.id st
                (upsert_payment pid o.id st data now1 db)).payments.any
                  (fun p => p.payment_id == pid) = true :=
              upsert_any db pid o.id st data now1
            have hlook : get_order_by_invoice iid
                (set_order_status o.id st
                  (upsert_payment pid o.id st data now1 db)) =
                some { o with status := st } := by
              rw [get_order_by_invoice_set_status,
                get_order_by_invoice_upsert, horder, Option.map_some',
                if_pos rfl]
            rw [reconcile_found now2 tg st pid iid data _
              ({ o with status := st }) h1 h2 hlook, if_neg hC]
            refine ⟨_, rfl, ?_, ?_, ?_, ?_⟩
            · have e1 : (upsert_payment pid ({ o with status := st} : Order).id
                  st data now2 (set_order_status o.id st
                    (upsert_payment pid o.id st data now1 db))).orders =
                  (set_order_status o.id st
                    (upsert_payment pid o.id st data now1 db)).orders :=
                upsert_orders _ _ _ _ _ _
              have e2 := set_status_idem_after
                ({ o with status := st} : Order).id st
                (upsert_payment pid ({ o with status := st} : Order).id st
                  data now2 (set_order_status o.id st
                    (upsert_payment pid o.id st data now1 db)))
                (upsert_payment pid o.id st data now1 db) e1
              exact e2.trans e1
            · rw [set_status_nextId, upsert_nextId, set_status_nextId,
                upsert_nextId]
            · rw [set_status_payments]
              exact upsert_length_of_any _ pid _ st data now2 hany2
            · have hpay2 : (set_order_status ({ o with status := st} : Order).id
                  st (upsert_payment pid ({ o with status := st} : Order).id st
                    data now2 (set_order_status o.id st
                      (upsert_payment pid o.id st data now1 db)))).payments =
                  (set_order_status o.id st
                    (upsert_payment pid o.id st data now1 db)).payments.map
                    (fun p => if p.payment_id == pid then { p with status := st, raw_json := dumpsPlain data, updated_at := now2 } else p) := by
                rw [set_status_payments]
                exact upsert_payments_of_any pid _ st data now2 _ hany2
              rw [hpay2]
              apply forall₂_map_self
              intro x hx
              cases hc : (x.payment_id == pid) with
              | true =>
                have hk : x.payment_id = pid := by simpa using hc
                have hpost := upsert_post pid o.id st data now1 db x hx hk
                simp [hpost.1, hpost.2]
              | false => simp

/-- C7 witness: processing a concrete signed confirmed notification against
the one-order store and replaying it. -/
theorem c7_witness :
    ∃ db2,
      nowpayments_ipn ("k") ("t2") (some true) rawConfirmed
          (some (canonSig ("k") vConfirmed))
          (nowpayments_ipn ("k") ("t1") (some true) rawConfirmed
            (some (canonSig ("k") vConfirmed)) dbOneInv).2 =
        (HttpResult.ok200, db2) ∧
      db2.orders = (nowpayments_ipn ("k") ("t1") (some true) rawConfirmed
        (some (canonSig ("k") vConfirmed)) dbOneInv).2.orders ∧
      db2.nextOrderId = (nowpayments_ipn ("k") ("t1") (some true) rawConfirmed
        (some (canonSig ("k") vConfirmed)) dbOneInv).2.nextOrderId ∧
      db2.payments.length = (nowpayments_ipn ("k") ("t1") (some true)
        rawConfirmed (some (canonSig ("k") vConfirmed))
          dbOneInv).2.payments.length ∧
      List.Forall₂ (fun p q => p.payment_id = q.payment_id ∧
        p.order_id = q.order_id ∧ p.status = q.status ∧
        p.raw_json = q.raw_json)
        (nowpayments_ipn ("k") ("t1") (some true) rawConfirmed
          (some (canonSig ("k") vConfirmed)) dbOneInv).2.payments
        db2.payments := by
  have hlook1 : get_order_by_invoice ("inv1") dbOneInv = some ordFix := rfl
  have hrun : nowpayments_ipn ("k") ("t1") (some true) rawConfirmed
      (some (canonSig ("k") vConfirmed)) dbOneInv =
      (HttpResult.ok200,
        set_order_status ordFix.id ("confirmed")
          (upsert_payment ("p1") ordFix.id ("confirmed") vConfirmed ("t1")
            dbOneInv)) := by
    rw [ipn_reduce ("k") ("t1") (some true) rawConfirmed
        (some (canonSig ("k") vConfirmed)) dbOneInv vConfirmed ("confirmed")
        ("p1") ("inv1")
        (verify_canonSig ("k") rawConfirmed vConfirmed rfl) rfl rfl,
      reconcile_found ("t1") (some true) ("confirmed") ("p1") ("inv1")
        vConfirmed dbOneInv ordFix (by decide) (by decide) hlook1,
      if_neg (by simp)]
  exact c7_replay_idempotent ("k") ("t1") ("t2") (some true) rawConfirmed
    (some (canonSig ("k") vConfirmed)) dbOneInv _ (by rw [hrun])

/-! ### C8 -/

/-- C8: when invoice creation returns a 2xx body whose id or URL alias is
missing/empty, the order is marked `invoice_error`, no invoice is attached
(the fresh order row keeps NULL invoice fields), and the raw body is shown
to the operator; when the gateway answers non-2xx, the order is instead
marked `invoice_http_error` and the response text is surfaced verbatim. -/
theorem c8_invoice_error_paths (now : String) (chat_id : Int) (amount : Rat)
    (db : DB) (inv idv urlv : Json)
    (hid : getAlias inv ("id") ("invoice_id") = Except.ok idv)
    (hurl : getAlias inv ("invoice_url") ("payment_url") = Except.ok urlv)
    (hempty : pyStr idv = "" ∨ pyTruthy urlv = false) :
    make_payment_link now chat_id amount (InvoiceResult.success inv) db =
      (set_order_status db.nextOrderId ("invoice_error")
          (create_order now chat_id amount db).2,
        [(chat_id, "❌ فشل إنشاء الفاتورة.\nالرد: " ++ pyStr inv)]) ∧
    ((make_payment_link now chat_id amount (InvoiceResult.success inv)
        db).1.orders.getLast? =
      some ⟨db.nextOrderId, now, chat_id, amount, none, none,
        "invoice_error"⟩) ∧
    (∀ body,
      make_payment_link now chat_id amount (InvoiceResult.httpError body)
          db =
        (set_order_status db.nextOrderId ("invoice_http_error")
            (create_order now chat_id amount db).2,
          [(chat_id, "❌ خطأ من NOWPayments:\n" ++ body)])) ∧
    ("invoice_error" : String) ≠ "invoice_http_error" := by
  have hmain : make_payment_link now chat_id amount
      (InvoiceResult.success inv) db =
      (set_order_status db.nextOrderId ("invoice_error")
          (create_order now chat_id amount db).2,
        [(chat_id, "❌ فشل إنشاء الفاتورة.\nالرد: " ++ pyStr inv)]) := by
    rcases hempty with he | he <;>
      simp [make_payment_link, hid, hurl, he, create_order]
  refine ⟨hmain, ?_, fun body => by simp [make_payment_link, create_order],
    by decide⟩
  rw [hmain]
  show ((create_order now chat_id amount db).2.orders.map _).getLast? = _
  rw [show (create_order now chat_id amount db).2.orders =
      db.orders ++ [⟨db.nextOrderId, now, chat_id, amount, none, none,
        "created"⟩] from rfl]
  rw [List.map_append, List.map_cons, List.map_nil, List.getLast?_concat]
  simp

/-- C8 witness: the claim instantiated at an empty 2xx body and at a non-2xx
response with text `BAD KEY`, against the empty store. -/
theorem c8_witness :
    make_payment_link ("t0") 100 5 (InvoiceResult.success (Json.obj []))
        init_db =
      (set_order_status init_db.nextOrderId ("invoice_error")
          (create_order ("t0") 100 5 init_db).2,
        [((100 : Int), "❌ فشل إنشاء الفاتورة.\nالرد: " ++ pyStr (Json.obj []))]) ∧
    ((make_payment_link ("t0") 100 5 (InvoiceResult.success (Json.obj []))
        init_db).1.orders.getLast? =
      some ⟨init_db.nextOrderId, "t0", 100, 5, none, none, "invoice_error"⟩) ∧
    make_payment_link ("t0") 100 5 (InvoiceResult.httpError ("BAD KEY"))
        init_db =
      (set_order_status init_db.nextOrderId ("invoice_http_error")
          (create_order ("t0") 100 5 init_db).2,
        [((100 : Int), "❌ خطأ من NOWPayments:\nBAD KEY")]) := by
  have h := c8_invoice_error_paths ("t0") 100 5 init_db (Json.obj [])
    (Json.str "") (Json.str "") rfl rfl (Or.inl rfl)
  exact ⟨h.1, h.2.1, h.2.2.1 ("BAD KEY")⟩
